import Mathlib

/-!
Verification of the constraint-compilation front end of the clustered
1-Dollo SAT-sampling pipeline (`generate_formula.py`).

The embedding models:
  * `read_matrix` and `parse_allowed_losses` — the input parsers;
  * the variable allocator `create_variable_matrices` and the clause
    generators imported from `get_vars.py` / `get_clauses.py` (those two
    modules are not part of the sources at hand, so they are modelled
    from the specification, as indicated by their doc comments);
  * `get_cnf` — the function that assembles the DIMACS output: the list
    of lines it writes is modelled by `get_cnf_lines`.

Machine integers are modelled as `Nat`/`Int`; file contents are modelled
as the list of their lines (without trailing newline characters);
fallible parsing returns `Option`.
-/

namespace DolloCnf

/-- A CNF clause: a disjunction of signed DIMACS literals
(a positive integer `v` is the variable `v`, `-v` its negation). -/
abbrev Clause := List Int

/-! ### Character-level parsing helpers

Python's `str.split()` / `int(...)` are modelled on `List Char`.
`split_ws` drops empty fields exactly as `str.split()` with no argument
does; `parse_int_chars` accepts an optional leading minus sign followed
by at least one decimal digit, as `int(...)` does on the token shapes
that occur in matrix and allowed-losses files. -/

/-- Whitespace test used by `split_ws` (space, tab, newline, carriage return). -/
def is_ws (c : Char) : Bool := (c == ' ') || (c == '\t') || (c == '\n') || (c == '\r')

/-- Accumulating splitter behind `split_ws`. -/
def split_ws_aux : List Char → List Char → List (List Char)
  | [], cur => if cur.isEmpty then [] else [cur.reverse]
  | c :: rest, cur =>
    if is_ws c then
      if cur.isEmpty then split_ws_aux rest [] else cur.reverse :: split_ws_aux rest []
    else split_ws_aux rest (c :: cur)

/-- Python `line.split()`: split on runs of whitespace, dropping empty fields. -/
def split_ws (cs : List Char) : List (List Char) := split_ws_aux cs []

/-- Accumulating splitter behind `split_comma`. -/
def split_comma_aux : List Char → List Char → List (List Char)
  | [], cur => [cur.reverse]
  | c :: rest, cur =>
    if c == ',' then cur.reverse :: split_comma_aux rest []
    else split_comma_aux rest (c :: cur)

/-- Python `line.split(',')`: split on commas, keeping empty fields. -/
def split_comma (cs : List Char) : List (List Char) := split_comma_aux cs []

/-- Value of a decimal digit character, `none` for any other character. -/
def digit_of (c : Char) : Option Nat :=
  if c == '0' then some 0 else if c == '1' then some 1 else if c == '2' then some 2
  else if c == '3' then some 3 else if c == '4' then some 4 else if c == '5' then some 5
  else if c == '6' then some 6 else if c == '7' then some 7 else if c == '8' then some 8
  else if c == '9' then some 9 else none

/-- Accumulating decimal reader behind `parse_int_chars`. -/
def parse_nat_aux : List Char → Nat → Option Nat
  | [], acc => some acc
  | c :: rest, acc =>
    match digit_of c with
    | none => none
    | some d => parse_nat_aux rest (acc * 10 + d)

/-- Python `int(token)` on an optionally minus-signed decimal token;
`none` models the `ValueError` raised on anything else. -/
def parse_int_chars : List Char → Option Int
  | [] => none
  | '-' :: rest =>
    if rest.isEmpty then none else (parse_nat_aux rest 0).map (fun v => -(v : Int))
  | cs => (parse_nat_aux cs 0).map (fun v => (v : Int))

/-- One matrix line: `[int(x) for x in line.split()]`. -/
def parse_row (line : String) : Option (List Int) :=
  (split_ws line.data).mapM parse_int_chars

/-- Model of `read_matrix` (`generate_formula.py`): drop the first two
lines of the file unconditionally, parse every remaining line as a row
of integers.  No dimension or cell-value validation is performed. -/
def read_matrix (lines : List String) : Option (List (List Int)) :=
  (lines.drop 2).mapM parse_row

/-- Model of `parse_allowed_losses` (`generate_formula.py`): with no
filename, return the set of all column indices below `num_mutations`;
with a file, parse its first line as comma-separated integers (empty
file gives the empty set); `num_mutations` is not consulted in the
file case, and no range check is performed. -/
def parse_allowed_losses (file : Option (List String)) (num_mutations : Nat) :
    Option (Finset Int) :=
  match file with
  | none => some (((List.range num_mutations).map Int.ofNat).toFinset)
  | some lines =>
    match lines with
    | [] => some ∅
    | first :: _ => ((split_comma first.data).mapM parse_int_chars).map List.toFinset

/-! ### Variable allocation

`get_vars.py` (the module defining `create_variable_matrices`) is not
among the sources at hand; the allocator is therefore modelled from the
specification (§3, §4.1): every category receives a dense block of
consecutive positive integers, blocks are laid out in a fixed order, the
first index is 1, and `col_is_duplicate` is the last-allocated category
(its highest index is the value `get_cnf` reads as the variable count).
-/

/-- Triangular accumulator: `tri_base k i` is the number of ordered pairs
`(a, b)` with `a < b < k` and `a < i`. -/
def tri_base (k : Nat) : Nat → Nat
  | 0 => 0
  | i + 1 => tri_base k i + (k - 1 - i)

/-- Number of unordered pairs of distinct indices below `k`. -/
def n_pairs (k : Nat) : Nat := tri_base k k

/-- Rank of the pair `(i, i2)` (with `i < i2 < k`) in the lexicographic
enumeration of the unordered pairs below `k`. -/
def pair_rank (k i i2 : Nat) : Nat := tri_base k i + (i2 - i - 1)

/-- Lexicographic list of all pairs `(i, i2)` with `i < i2 < k`. -/
def pair_list (k : Nat) : List (Nat × Nat) :=
  (List.range k).flatMap (fun i => (List.range' (i + 1) (k - 1 - i)).map (fun i2 => (i, i2)))

/-- Index of variable `FalsePositive(i, j)` for an `n × m` matrix. -/
def fp_var (m i j : Nat) : Nat := 1 + (i * m + j)

/-- Index of variable `FalseNegative(i, j)`. -/
def fn_var (n m i j : Nat) : Nat := 1 + n * m + (i * m + j)

/-- Index of variable `IsTwo(i, j)`. -/
def is_two_var (n m i j : Nat) : Nat := 1 + 2 * (n * m) + (i * m + j)

/-- Index of variable `RowPairEqualAtCol(i, i2, j)` (`pair_in_col_equal`). -/
def pair_col_var (n m i i2 j : Nat) : Nat :=
  1 + 3 * (n * m) + (pair_rank n i i2 * m + j)

/-- Index of variable `ColPairEqualAtRow(i, j, j2)` (`pair_in_row_equal`). -/
def pair_row_var (n m i j j2 : Nat) : Nat :=
  1 + 3 * (n * m) + n_pairs n * m + (pair_rank m j j2 * n + i)

/-- Index of variable `RowAssign(i, c)` (`row_is_duplicate`). -/
def row_dup_var (n m s i c : Nat) : Nat :=
  1 + 3 * (n * m) + n_pairs n * m + n_pairs m * n + (i * s + c)

/-- Index of variable `ColAssign(j, c)` (`col_is_duplicate`). -/
def col_dup_var (n m s t j c : Nat) : Nat :=
  1 + 3 * (n * m) + n_pairs n * m + n_pairs m * n + n * s + (j * t + c)

/-- Total number of allocated boolean variables. -/
def total_vars (n m s t : Nat) : Nat :=
  3 * (n * m) + n_pairs n * m + n_pairs m * n + n * s + m * t

/-- A rectangular block of consecutive indices starting at `b`, laid out
row-major with `r` rows and `c` columns. -/
def rect_block (b r c : Nat) : List (List Nat) :=
  (List.range r).map (fun i => (List.range c).map (fun j => b + (i * c + j)))

/-- The category → index mapping returned by the allocator (the value of
the `variables` dictionary in the Python sources).  The two pair
categories are stored with one row per pair, in `pair_rank` order. -/
structure VarMatrices where
  false_positives : List (List Nat)
  false_negatives : List (List Nat)
  is_two : List (List Nat)
  pair_in_col_equal : List (List Nat)
  pair_in_row_equal : List (List Nat)
  row_is_duplicate : List (List Nat)
  col_is_duplicate : List (List Nat)
  deriving DecidableEq

/-- Modelled from the spec: `create_variable_matrices` lives in
`get_vars.py`, which is not among the sources at hand.  Per §3/§4.1 it
assigns dense, unique, contiguous indices starting at 1, one block per
category in a fixed deterministic order, using the matrix only through
its dimensions; `col_is_duplicate` is allocated last. -/
def create_variable_matrices (matrix : List (List Int)) (s t : Nat) : VarMatrices :=
  let n := matrix.length
  let m := (matrix.headD []).length
  { false_positives := rect_block 1 n m
    false_negatives := rect_block (1 + n * m) n m
    is_two := rect_block (1 + 2 * (n * m)) n m
    pair_in_col_equal := rect_block (1 + 3 * (n * m)) (n_pairs n) m
    pair_in_row_equal := rect_block (1 + 3 * (n * m) + n_pairs n * m) (n_pairs m) n
    row_is_duplicate :=
      rect_block (1 + 3 * (n * m) + n_pairs n * m + n_pairs m * n) n s
    col_is_duplicate :=
      rect_block (1 + 3 * (n * m) + n_pairs n * m + n_pairs m * n + n * s) m t }

/-- All allocated indices, in allocation order. -/
def alloc_indices (v : VarMatrices) : List Nat :=
  v.false_positives.flatten ++ v.false_negatives.flatten ++ v.is_two.flatten
    ++ v.pair_in_col_equal.flatten ++ v.pair_in_row_equal.flatten
    ++ v.row_is_duplicate.flatten ++ v.col_is_duplicate.flatten

/-! ### Clause generation

`get_clauses.py` is not among the sources at hand; each generator below
is modelled from the specification (§4.2), with the argument lists that
`get_cnf` (in `generate_formula.py`) actually passes.  Note that none of
the generators receives the parsed allowed-losses set: `get_cnf` binds
it but passes it to no generator, so no clause can depend on it. -/

/-- Number of rows of the input matrix, as `get_cnf` computes it. -/
def mat_rows (matrix : List (List Int)) : Nat := matrix.length

/-- Number of columns of the input matrix, as `get_cnf` computes it
from `matrix[0]`. -/
def mat_cols (matrix : List (List Int)) : Nat := (matrix.headD []).length

/-- Modelled from the spec: `generate_is_one` (§3, §9).  `IsOne(i,j)`
is not an allocated variable but a derived literal: if the observed bit
is 1, the cell is "present, not lost" exactly when it is not a false
positive (literal `-FalsePositive(i,j)`); if the observed bit is 0,
exactly when it is a false negative (literal `FalseNegative(i,j)`). -/
def is_one_lit (matrix : List (List Int)) (i j : Nat) : Int :=
  let n := mat_rows matrix
  let m := mat_cols matrix
  if (matrix.getD i []).getD j 0 = 1 then -(Int.ofNat (fp_var m i j))
  else Int.ofNat (fn_var n m i j)

/-- Modelled from the spec: the matrix of derived `IsOne` literals that
`generate_is_one` returns. -/
def generate_is_one (matrix : List (List Int)) : List (List Int) :=
  (List.range (mat_rows matrix)).map
    (fun i => (List.range (mat_cols matrix)).map (fun j => is_one_lit matrix i j))

/-- Modelled from the spec: `get_clauses_not_one_and_two` (§4.2 family 1,
mutual exclusion): one clause `¬IsOne(i,j) ∨ ¬IsTwo(i,j)` per cell. -/
def get_clauses_not_one_and_two (matrix : List (List Int)) : List Clause :=
  let n := mat_rows matrix
  let m := mat_cols matrix
  (List.range n).flatMap (fun i => (List.range m).map (fun j =>
    [-(is_one_lit matrix i j), -(Int.ofNat (is_two_var n m i j))]))

/-- Modelled from the spec: `get_clauses_no_forbidden` (§4.2 family 2,
forbidden-state clauses).  The call site passes only the state and
cluster-assignment variables — no allowed-losses data — so the clauses
tie each cell's loss state to its column's cluster assignment: a lost
cell forces its column to be assigned to some cluster. -/
def get_clauses_no_forbidden (matrix : List (List Int)) (s t : Nat) : List Clause :=
  let n := mat_rows matrix
  let m := mat_cols matrix
  (List.range n).flatMap (fun i => (List.range m).map (fun j =>
    (-(Int.ofNat (is_two_var n m i j)))
      :: (List.range t).map (fun c => Int.ofNat (col_dup_var n m s t j c))))

/-- Modelled from the spec: `get_row_duplicate_clauses` (§4.2 family 4,
cluster consistency for rows): two rows assigned to the same cluster
must be pairwise equal at every column. -/
def get_row_duplicate_clauses (matrix : List (List Int)) (s : Nat) : List Clause :=
  let n := mat_rows matrix
  let m := mat_cols matrix
  (pair_list n).flatMap (fun p => (List.range s).flatMap (fun c =>
    (List.range m).map (fun j =>
      [-(Int.ofNat (row_dup_var n m s p.1 c)), -(Int.ofNat (row_dup_var n m s p.2 c)),
        Int.ofNat (pair_col_var n m p.1 p.2 j)])))

/-- Modelled from the spec: `get_col_duplicate_clauses` (§4.2 family 4,
cluster consistency for columns). -/
def get_col_duplicate_clauses (matrix : List (List Int)) (s t : Nat) : List Clause :=
  let n := mat_rows matrix
  let m := mat_cols matrix
  (pair_list m).flatMap (fun p => (List.range t).flatMap (fun c =>
    (List.range n).map (fun i =>
      [-(Int.ofNat (col_dup_var n m s t p.1 c)), -(Int.ofNat (col_dup_var n m s t p.2 c)),
        Int.ofNat (pair_row_var n m i p.1 p.2)])))

/-- Biconditional gadget shared by the two pairwise-equality families
(§4.2 family 3): `e` is true iff the states `(a1, a2)` and `(b1, b2)`
match — four clauses forbidding the mismatching combinations, plus the
clauses forcing `e` when both states agree. -/
def pair_equal_gadget (e a1 a2 b1 b2 : Int) : List Clause :=
  [[-e, -a1, b1], [-e, a1, -b1], [-e, -a2, b2], [-e, a2, -b2],
    [e, -a1, -b1], [e, -a2, -b2], [e, a1, a2, b1, b2]]

/-- Modelled from the spec: `get_col_pairs_equal_clauses` (§4.2 family 3,
pairwise equality of two rows at a column, variable `pair_in_col_equal`). -/
def get_col_pairs_equal_clauses (matrix : List (List Int)) : List Clause :=
  let n := mat_rows matrix
  let m := mat_cols matrix
  (pair_list n).flatMap (fun p => (List.range m).flatMap (fun j =>
    pair_equal_gadget (Int.ofNat (pair_col_var n m p.1 p.2 j))
      (is_one_lit matrix p.1 j) (Int.ofNat (is_two_var n m p.1 j))
      (is_one_lit matrix p.2 j) (Int.ofNat (is_two_var n m p.2 j))))

/-- Modelled from the spec: `get_row_pairs_equal_clauses` (§4.2 family 3,
pairwise equality of two columns at a row, variable `pair_in_row_equal`). -/
def get_row_pairs_equal_clauses (matrix : List (List Int)) : List Clause :=
  let n := mat_rows matrix
  let m := mat_cols matrix
  (pair_list m).flatMap (fun p => (List.range n).flatMap (fun i =>
    pair_equal_gadget (Int.ofNat (pair_row_var n m i p.1 p.2))
      (is_one_lit matrix i p.1) (Int.ofNat (is_two_var n m i p.1))
      (is_one_lit matrix i p.2) (Int.ofNat (is_two_var n m i p.2))))

/-- Modelled from the spec: `constrain_fp` as invoked by `get_cnf` on the
cluster-assignment blocks with second argument `False` (§4.2 family 5,
at-most-one): pairwise mutual exclusion inside every row of the block.
Only this reached behaviour is modelled; the flag is ignored. -/
def constrain_fp (block : List (List Nat)) (_exact : Bool) : List Clause :=
  block.flatMap (fun row =>
    (List.range row.length).flatMap (fun c =>
      (List.range' (c + 1) (row.length - 1 - c)).map (fun c2 =>
        [-(Int.ofNat (row.getD c 0)), -(Int.ofNat (row.getD c2 0))])))

/-- Modelled from the spec: `at_least_one` (§4.2 family 6): one clause
per row of the block, listing all its candidate variables. -/
def at_least_one (block : List (List Nat)) : List Clause :=
  block.map (fun row => row.map Int.ofNat)

/-! ### Formula assembly (`get_cnf`) -/

/-- The ordered clause list that `get_cnf` writes (the concatenation of
the ten `writelines` calls, in source order). -/
def get_cnf_clauses (matrix : List (List Int)) (s t : Nat) : List Clause :=
  get_clauses_no_forbidden matrix s t
    ++ get_clauses_not_one_and_two matrix
    ++ get_row_duplicate_clauses matrix s
    ++ get_col_duplicate_clauses matrix s t
    ++ get_col_pairs_equal_clauses matrix
    ++ get_row_pairs_equal_clauses matrix
    ++ constrain_fp (create_variable_matrices matrix s t).row_is_duplicate false
    ++ constrain_fp (create_variable_matrices matrix s t).col_is_duplicate false
    ++ at_least_one (create_variable_matrices matrix s t).row_is_duplicate
    ++ at_least_one (create_variable_matrices matrix s t).col_is_duplicate

/-- The clause count `get_cnf` computes for the header: the sum of the
lengths of the ten clause families. -/
def get_cnf_num_clauses (matrix : List (List Int)) (s t : Nat) : Nat :=
  (get_clauses_no_forbidden matrix s t).length
    + (get_clauses_not_one_and_two matrix).length
    + (get_row_duplicate_clauses matrix s).length
    + (get_col_duplicate_clauses matrix s t).length
    + (get_col_pairs_equal_clauses matrix).length
    + (get_row_pairs_equal_clauses matrix).length
    + (constrain_fp (create_variable_matrices matrix s t).row_is_duplicate false).length
    + (constrain_fp (create_variable_matrices matrix s t).col_is_duplicate false).length
    + (at_least_one (create_variable_matrices matrix s t).row_is_duplicate).length
    + (at_least_one (create_variable_matrices matrix s t).col_is_duplicate).length

/-- The variable count `get_cnf` writes in the header: the Python source
reads `col_is_duplicate[num_cols-1]`, the last-allocated row of the
last-allocated category; the value it denotes is that row's highest
(i.e. last) index. -/
def get_cnf_num_vars (matrix : List (List Int)) (s t : Nat) : Nat :=
  (((create_variable_matrices matrix s t).col_is_duplicate).getD
    (mat_cols matrix - 1) []).getLastD 0

/-- The DIMACS header line `p cnf <numVars> <numClauses>`. -/
def dimacs_header (num_vars num_clauses : Nat) : String :=
  "p cnf " ++ Nat.repr num_vars ++ " " ++ Nat.repr num_clauses ++ "\n"

/-- Serialization of one clause: space-separated signed integers
terminated by the sentinel `0` and a newline. -/
def clause_line (cl : Clause) : String :=
  (cl.foldl (fun acc l => acc ++ Int.repr l ++ " ") "") ++ "0\n"

/-- The list of lines `get_cnf` writes to the output file: the DIMACS
header exactly when `unigen` is true, followed by one line per clause.
Mirroring the source, the allowed-losses file is parsed but the result
is bound to a variable that is never used again. -/
def get_cnf_lines (matrix : List (List Int)) (s t : Nat) (unigen : Bool)
    (losses_file : Option (List String)) : List String :=
  let allowed_losses := parse_allowed_losses losses_file (mat_cols matrix)
  let first_line := dimacs_header (get_cnf_num_vars matrix s t) (get_cnf_num_clauses matrix s t)
  (if unigen then [first_line] else []) ++ (get_cnf_clauses matrix s t).map clause_line

/-- The whole pipeline from the matrix file's lines to the output file's
lines (`none` models a Python exception while parsing the matrix). -/
def get_cnf_file (matrix_file : List String) (s t : Nat) (unigen : Bool)
    (losses_file : Option (List String)) : Option (List String) :=
  (read_matrix matrix_file).map (fun matrix => get_cnf_lines matrix s t unigen losses_file)

/-! ### Assignment semantics -/

/-- Truth of a signed DIMACS literal under a boolean assignment. -/
def lit_sat (a : Nat → Bool) (l : Int) : Bool :=
  if 0 < l then a l.toNat else !(a (-l).toNat)

/-- Truth of a clause (a disjunction) under an assignment. -/
def clause_sat (a : Nat → Bool) (cl : Clause) : Bool := cl.any (lit_sat a)

/-- Truth of a whole CNF formula under an assignment. -/
def formula_sat (a : Nat → Bool) (f : List Clause) : Bool := f.all (clause_sat a)

/-- Concrete assignment for the 1×1 matrix `[[0]]` with `s = t = 1`:
variable 3 (`IsTwo(0,0)`), variable 4 (`RowAssign(0,0)`) and variable 5
(`ColAssign(0,0)`) are true, everything else false. -/
def loss_bug_assignment : Nat → Bool :=
  fun v => (v == 3) || (v == 4) || (v == 5)

/-- The clause order CLAIMED by the specification (§4.2 output order):
mutual exclusion, forbidden-state, pairwise-equality gadgets,
cluster-consistency (duplicate), at-most-one, at-least-one — keeping the
source's internal order within each of the six families. -/
def spec_order_clauses (matrix : List (List Int)) (s t : Nat) : List Clause :=
  get_clauses_not_one_and_two matrix
    ++ get_clauses_no_forbidden matrix s t
    ++ get_col_pairs_equal_clauses matrix
    ++ get_row_pairs_equal_clauses matrix
    ++ get_row_duplicate_clauses matrix s
    ++ get_col_duplicate_clauses matrix s t
    ++ constrain_fp (create_variable_matrices matrix s t).row_is_duplicate false
    ++ constrain_fp (create_variable_matrices matrix s t).col_is_duplicate false
    ++ at_least_one (create_variable_matrices matrix s t).row_is_duplicate
    ++ at_least_one (create_variable_matrices matrix s t).col_is_duplicate

/-! ### Helper lemmas -/

theorem range'_glue (a p b q : Nat) (hb : b = a + p) :
    List.range' a p ++ List.range' b q = List.range' a (p + q) := by
  subst hb
  have h := List.range'_append a p q 1
  rw [one_mul] at h
  rw [h, Nat.add_comm]

theorem rect_flatten (b r c : Nat) :
    (rect_block b r c).flatten = List.range' b (r * c) := by
  induction r with
  | zero => simp [rect_block]
  | succ r ih =>
    have hsplit : rect_block b (r + 1) c
        = rect_block b r c ++ [(List.range c).map (fun j => b + (r * c + j))] := by
      simp [rect_block, List.range_succ]
    have h2 : (List.range c).map (fun j => b + (r * c + j)) = List.range' (b + r * c) c := by
      rw [List.range'_eq_map_range]
      simp [Nat.add_assoc]
    rw [hsplit, List.flatten_append, ih]
    simp only [List.flatten_cons, List.flatten_nil, List.append_nil]
    rw [h2, range'_glue b (r * c) (b + r * c) c rfl]
    congr 1
    ring

theorem alloc_indices_eq (matrix : List (List Int)) (s t : Nat) :
    alloc_indices (create_variable_matrices matrix s t)
      = List.range' 1 (total_vars (mat_rows matrix) (mat_cols matrix) s t) := by
  simp only [alloc_indices, create_variable_matrices, rect_flatten, mat_rows, mat_cols]
  generalize matrix.length = n
  generalize (matrix.headD []).length = m
  rw [range'_glue 1 (n * m) (1 + n * m) (n * m) rfl]
  rw [range'_glue 1 (n * m + n * m) (1 + 2 * (n * m)) (n * m) (by ring)]
  rw [range'_glue 1 (n * m + n * m + n * m) (1 + 3 * (n * m)) (n_pairs n * m) (by ring)]
  rw [range'_glue 1 (n * m + n * m + n * m + n_pairs n * m)
    (1 + 3 * (n * m) + n_pairs n * m) (n_pairs m * n) (by ring)]
  rw [range'_glue 1 (n * m + n * m + n * m + n_pairs n * m + n_pairs m * n)
    (1 + 3 * (n * m) + n_pairs n * m + n_pairs m * n) (n * s) (by ring)]
  rw [range'_glue 1 (n * m + n * m + n * m + n_pairs n * m + n_pairs m * n + n * s)
    (1 + 3 * (n * m) + n_pairs n * m + n_pairs m * n + n * s) (m * t) (by ring)]
  simp only [total_vars]
  congr 1
  ring

theorem rect_last (b m t : Nat) (hm : 1 ≤ m) (ht : 1 ≤ t) :
    ((rect_block b m t).getD (m - 1) []).getLastD 0 = b + (m * t - 1) := by
  obtain ⟨m1, rfl⟩ := Nat.exists_eq_add_of_le hm
  obtain ⟨t1, rfl⟩ := Nat.exists_eq_add_of_le ht
  rw [Nat.add_comm 1 m1, Nat.add_comm 1 t1]
  simp only [Nat.add_sub_cancel]
  have hlen : m1 < (rect_block b (m1 + 1) (t1 + 1)).length := by
    simp [rect_block]
  rw [List.getD_eq_getElem _ _ hlen]
  simp only [rect_block, List.getElem_map, List.getElem_range]
  rw [List.range_succ, List.map_append]
  simp only [List.map_cons, List.map_nil, List.getLastD_concat]
  have : (m1 + 1) * (t1 + 1) = m1 * (t1 + 1) + t1 + 1 := by ring
  rw [this]
  simp [Nat.add_sub_cancel, Nat.add_assoc]

theorem get_cnf_num_vars_eq (matrix : List (List Int)) (s t : Nat)
    (hm : 1 ≤ mat_cols matrix) (ht : 1 ≤ t) :
    get_cnf_num_vars matrix s t = total_vars (mat_rows matrix) (mat_cols matrix) s t := by
  simp only [get_cnf_num_vars, create_variable_matrices, mat_rows, mat_cols] at *
  rw [rect_last _ _ _ hm ht]
  simp only [total_vars]
  have hmt : 1 ≤ (matrix.headD []).length * t := Nat.mul_le_mul hm ht
  generalize matrix.length = n at *
  generalize (matrix.headD []).length = m at *
  set a := n * m with ha
  set b2 := n_pairs n * m with hb2
  set c2 := n_pairs m * n with hc2
  set d2 := n * s with hd2
  set g2 := m * t with hg2
  omega

theorem rect_rows_len (b r c : Nat) : ∀ row ∈ rect_block b r c, row.length = c := by
  intro row hrow
  simp only [rect_block, List.mem_map] at hrow
  obtain ⟨i, _, rfl⟩ := hrow
  simp

theorem constrain_fp_singleton (block : List (List Nat))
    (h : ∀ row ∈ block, row.length = 1) : constrain_fp block false = [] := by
  induction block with
  | nil => rfl
  | cons r rest ih =>
    rw [constrain_fp, List.flatMap_cons]
    have hr : r.length = 1 := h r (List.mem_cons_self r rest)
    rw [hr]
    have hrest : constrain_fp rest false = [] :=
      ih (fun row hm => h row (List.mem_cons_of_mem r hm))
    rw [constrain_fp] at hrest
    rw [hrest]
    simp [List.range_succ]

theorem at_least_one_singleton (block : List (List Nat))
    (h : ∀ row ∈ block, row.length = 1) :
    (at_least_one block).all (fun cl => cl.length == 1) = true := by
  simp only [at_least_one, List.all_eq_true, List.mem_map]
  rintro cl ⟨row, hrow, rfl⟩
  simp [h row hrow]


/-! ### Claim theorems -/

/-- C1: the claim says the formula written by `get_cnf` forces
`IsTwo(i,j)` false for every column outside AllowedLosses.  In the code
the parsed allowed-losses set is bound and never used, so the emitted
file is identical for every allowed-losses input; moreover, for the 1×1
matrix `[[0]]` with `s = t = 1` and an empty allowed-losses file (empty
allowed set), the emitted formula has a satisfying assignment in which
`IsTwo(0,0)` is true. -/
theorem c1_loss_restriction_bug :
    (∀ (matrix : List (List Int)) (s t : Nat) (u : Bool) (l l2 : Option (List String)),
        get_cnf_lines matrix s t u l = get_cnf_lines matrix s t u l2)
      ∧ parse_allowed_losses (some []) 1 = some ∅
      ∧ formula_sat loss_bug_assignment (get_cnf_clauses [[0]] 1 1) = true
      ∧ loss_bug_assignment (is_two_var 1 1 0 0) = true :=
  ⟨fun _ _ _ _ _ _ => rfl, by decide, by decide, by decide⟩

/-- C2: the DIMACS header line is written exactly when the `unigen` flag
is true; with the flag false the file consists solely of the clause
lines. -/
theorem c2_header_iff_unigen (matrix : List (List Int)) (s t : Nat)
    (l : Option (List String)) :
    get_cnf_lines matrix s t true l
        = dimacs_header (get_cnf_num_vars matrix s t) (get_cnf_num_clauses matrix s t)
            :: (get_cnf_clauses matrix s t).map clause_line
      ∧ get_cnf_lines matrix s t false l = (get_cnf_clauses matrix s t).map clause_line :=
  ⟨rfl, rfl⟩

/-- C3: the allocated variable indices, in allocation order, are exactly
`1, 2, …, total_vars` (unique and contiguous from 1), and the variable
count written in the header equals that total — the highest index of the
last-allocated category `col_is_duplicate`. -/
theorem c3_variable_indices (matrix : List (List Int)) (s t : Nat)
    (hm : 1 ≤ mat_cols matrix) (ht : 1 ≤ t) :
    alloc_indices (create_variable_matrices matrix s t)
        = List.range' 1 (total_vars (mat_rows matrix) (mat_cols matrix) s t)
      ∧ (alloc_indices (create_variable_matrices matrix s t)).Nodup
      ∧ get_cnf_num_vars matrix s t = total_vars (mat_rows matrix) (mat_cols matrix) s t := by
  refine ⟨alloc_indices_eq matrix s t, ?_, get_cnf_num_vars_eq matrix s t hm ht⟩
  rw [alloc_indices_eq]
  exact List.nodup_range' _ _

/-- Witness for C3 at the 2×2 matrix with `s = t = 2`. -/
theorem c3_variable_indices_witness :
    alloc_indices (create_variable_matrices [[0, 1], [1, 0]] 2 2)
        = List.range' 1 (total_vars 2 2 2 2)
      ∧ (alloc_indices (create_variable_matrices [[0, 1], [1, 0]] 2 2)).Nodup
      ∧ get_cnf_num_vars [[0, 1], [1, 0]] 2 2 = total_vars 2 2 2 2 :=
  c3_variable_indices [[0, 1], [1, 0]] 2 2 (by decide) (by decide)

/-- C4: the clause count computed for the header is exactly the number
of clause lines written after the header. -/
theorem c4_clause_count (matrix : List (List Int)) (s t : Nat)
    (l : Option (List String)) :
    get_cnf_num_clauses matrix s t = (get_cnf_clauses matrix s t).length
      ∧ (get_cnf_lines matrix s t true l).length = get_cnf_num_clauses matrix s t + 1 := by
  constructor
  · simp only [get_cnf_num_clauses, get_cnf_clauses, List.length_append]
  · simp only [get_cnf_lines, get_cnf_num_clauses, get_cnf_clauses, List.length_append,
      List.length_map, if_true, List.length_cons, List.singleton_append, List.length_singleton]

/-- C5 (counterexample): at the concrete 2×2 input with `s = t = 2`, the
clause sequence actually emitted differs from the order the claim gives
(mutual exclusion, forbidden-state, pairwise-equality, duplicate,
at-most-one, at-least-one). -/
theorem c5_order_counterexample :
    spec_order_clauses [[0, 1], [1, 0]] 2 2 ≠ get_cnf_clauses [[0, 1], [1, 0]] 2 2 := by
  decide

/-- C5 (amended): the clause groups are emitted in the source order:
forbidden-state, mutual exclusion, cluster-consistency (rows then
columns), pairwise-equality (row-pairs-at-column then
column-pairs-at-row), at-most-one (rows then columns), at-least-one
(rows then columns). -/
theorem c5_amended_order (matrix : List (List Int)) (s t : Nat)
    (l : Option (List String)) :
    get_cnf_lines matrix s t false l
      = (get_clauses_no_forbidden matrix s t
          ++ get_clauses_not_one_and_two matrix
          ++ get_row_duplicate_clauses matrix s
          ++ get_col_duplicate_clauses matrix s t
          ++ get_col_pairs_equal_clauses matrix
          ++ get_row_pairs_equal_clauses matrix
          ++ constrain_fp (create_variable_matrices matrix s t).row_is_duplicate false
          ++ constrain_fp (create_variable_matrices matrix s t).col_is_duplicate false
          ++ at_least_one (create_variable_matrices matrix s t).row_is_duplicate
          ++ at_least_one (create_variable_matrices matrix s t).col_is_duplicate).map
          clause_line :=
  rfl

/-- C6 (counterexample): the three malformed inputs the claim says are
fatal are all accepted without any error: a cell value that is neither
0 nor 1, a file lacking the two header lines, and an allowed-losses
index (7) out of range for the column count (3). -/
theorem c6_no_validation_counterexample :
    read_matrix ["5", "5", "2 3"] = some [[2, 3]]
      ∧ read_matrix ["3"] = some []
      ∧ parse_allowed_losses (some ["7"]) 3 = some ({7} : Finset Int) :=
  ⟨by decide, by decide, by decide⟩

/-- C6 (amended): no MalformedInput validation exists — the column count
is never consulted when an allowed-losses file is given, and malformed
matrix files (non-binary cells, missing header lines) are accepted. -/
theorem c6_amended_no_validation :
    (∀ (lines : List String) (m m2 : Nat),
        parse_allowed_losses (some lines) m = parse_allowed_losses (some lines) m2)
      ∧ read_matrix ["5", "5", "2 3"] = some [[2, 3]]
      ∧ read_matrix ["3"] = some [] :=
  ⟨fun lines _ _ => by cases lines <;> rfl, by decide, by decide⟩

/-- C7: the allocator is deterministic and depends on its input matrix
only through the dimensions: any two matrices with equal row and column
counts receive identical category-to-index mappings (for the same
`s`, `t`). -/
theorem c7_allocator_deterministic (A B : List (List Int)) (s t : Nat)
    (hn : A.length = B.length) (hm : (A.headD []).length = (B.headD []).length) :
    create_variable_matrices A s t = create_variable_matrices B s t := by
  simp only [create_variable_matrices]
  rw [hn, hm]

/-- Witness for C7: two different 2×2 matrices receive the same mapping. -/
theorem c7_allocator_deterministic_witness :
    create_variable_matrices [[0, 1], [1, 0]] 2 2
      = create_variable_matrices [[1, 1], [0, 0]] 2 2 :=
  c7_allocator_deterministic [[0, 1], [1, 0]] [[1, 1], [0, 0]] 2 2 rfl rfl

/-- C8: with no allowed-losses filename, `parse_allowed_losses` returns
the set of exactly the column indices `0 … m-1`. -/
theorem c8_default_allows_all (m : Nat) :
    ∃ S, parse_allowed_losses none m = some S
      ∧ ∀ z : Int, z ∈ S ↔ 0 ≤ z ∧ z < (m : Int) := by
  refine ⟨_, rfl, fun z => ?_⟩
  simp only [List.mem_toFinset, List.mem_map, List.mem_range, Int.ofNat_eq_natCast]
  constructor
  · rintro ⟨a, ha, rfl⟩
    exact ⟨Int.natCast_nonneg a, by exact_mod_cast ha⟩
  · rintro ⟨h0, hm⟩
    refine ⟨z.toNat, by omega, by omega⟩

/-- C9: in the degenerate cases `s = 1` (rows) and `t = 1` (columns) the
at-most-one cardinality group is empty and every at-least-one clause is
a well-formed unit clause — no empty disjunction is ever emitted, and
generation terminates (all generators are total functions). -/
theorem c9_degenerate_cardinality (matrix : List (List Int)) (s t : Nat) :
    constrain_fp (create_variable_matrices matrix 1 t).row_is_duplicate false = []
      ∧ (at_least_one (create_variable_matrices matrix 1 t).row_is_duplicate).all
          (fun cl => cl.length == 1) = true
      ∧ constrain_fp (create_variable_matrices matrix s 1).col_is_duplicate false = []
      ∧ (at_least_one (create_variable_matrices matrix s 1).col_is_duplicate).all
          (fun cl => cl.length == 1) = true := by
  refine ⟨?_, ?_, ?_, ?_⟩
  · exact constrain_fp_singleton _ (rect_rows_len _ _ _)
  · exact at_least_one_singleton _ (rect_rows_len _ _ _)
  · exact constrain_fp_singleton _ (rect_rows_len _ _ _)
  · exact at_least_one_singleton _ (rect_rows_len _ _ _)

/-- C10: `read_matrix` never inspects the two header lines — any two
files with the same body parse identically, the result is exactly the
body parsed one row per line, the whole `get_cnf` output is likewise
header-independent, and a file whose header counts (100×100) disagree
with its 1×2 body is accepted without error. -/
theorem c10_headers_ignored :
    (∀ (a b a2 b2 : String) (body : List String),
        read_matrix (a :: b :: body) = read_matrix (a2 :: b2 :: body))
      ∧ (∀ (a b : String) (body : List String),
          read_matrix (a :: b :: body) = body.mapM parse_row)
      ∧ (∀ (a b a2 b2 : String) (body : List String) (s t : Nat) (u : Bool)
            (l : Option (List String)),
          get_cnf_file (a :: b :: body) s t u l = get_cnf_file (a2 :: b2 :: body) s t u l)
      ∧ read_matrix ["100", "100", "0 1"] = some [[0, 1]] :=
  ⟨fun _ _ _ _ _ => rfl, fun _ _ _ => rfl, fun _ _ _ _ _ _ _ _ _ => rfl, by decide⟩

end DolloCnf
